import Mathlib

/-!
Verification of the chezwatts.gallery web server (server.go).

The server keeps an in-memory hit counter `hitCountByPage : map[string]int`
guarded by one mutex, persists it to a snapshot CSV after every mutation,
and a background task appends one dated row per tick to a historical stats
log CSV, growing columns as new pages appear.

The embedding below is shallow: the Go map is an association list with at
most one entry per key, Go map reads default to zero, file contents are the
parsed values the code reads and writes (`none` for an absent file), and
`log.Fatal` / `panic` paths return `none`.
-/

/-- The in-memory counter map `hitCountByPage`, embedded as an association
list holding each key at most once, in insertion order. -/
abbrev HitCounts := List (String × Int)

/-- Go map read `m[k]`: the entry of `k` if present, else the zero value. -/
def getCount : HitCounts → String → Int
  | [], _ => 0
  | e :: rest, k => if e.1 = k then e.2 else getCount rest k

/-- Go map write `m[k] = v`: replaces the entry of `k` if present, else
appends a new entry. -/
def setCount : HitCounts → String → Int → HitCounts
  | [], k, v => [(k, v)]
  | e :: rest, k, v => if e.1 = k then (k, v) :: rest else e :: setCount rest k v

/-- The keys of the counter map. -/
def keysOf (m : HitCounts) : List String := m.map (fun e => e.1)

/-- server.go `santitisePageName`: `strings.Trim(page, "/")` removes every
leading and every trailing slash character. -/
def santitisePageName (page : String) : String :=
  String.mk (((page.data.dropWhile (fun c => c == '/')).reverse.dropWhile
    (fun c => c == '/')).reverse)

/-- server.go `increaseHitCount`: sanitizes the page name, then adds `amount`
to that page and to the key "total" (the snapshot save it also triggers is
modelled separately by `saveStats`). -/
def increaseHitCount (page : String) (amount : Int) (m : HitCounts) : HitCounts :=
  let p := santitisePageName page
  let m1 := setCount m p (getCount m p + amount)
  setCount m1 "total" (getCount m1 "total" + amount)

/-- A sequence of `increaseHitCount` calls applied in order. -/
def applyIncrements (calls : List (String × Int)) (m : HitCounts) : HitCounts :=
  calls.foldl (fun s c => increaseHitCount c.1 c.2 s) m

/-- Insertion into a list sorted by strictly descending hit count. Go's
`sort.Sort(ByHits(...))` with `Less(i,j) = a[i].HitCount > a[j].HitCount` is
unstable and the map iteration order feeding it is arbitrary, so any
descending reordering of the entries is a faithful model; this is one. -/
def insertByHits (e : String × Int) : List (String × Int) → List (String × Int)
  | [] => [e]
  | f :: rest => if e.2 > f.2 then e :: f :: rest else f :: insertByHits e rest

/-- Insertion sort by descending hit count. -/
def sortByHits : List (String × Int) → List (String × Int)
  | [] => []
  | e :: rest => insertByHits e (sortByHits rest)

/-- server.go `getStatsPageViewModel`: the `(Page, HitCount)` entries of the
counter map, sorted by descending hit count. -/
def getStatsPageViewModel (m : HitCounts) : List (String × Int) :=
  sortByHits m

/-- Reading one page of a snapshot slice, with the Go zero default. -/
def snapshotHitCount (vm : List (String × Int)) (page : String) : Int :=
  match vm.find? (fun e => e.1 == page) with
  | some e => e.2
  | none => 0

/-- server.go `indexOf`: index of the first occurrence of `word`, or -1. -/
def indexOf (word : String) (data : List String) : Int :=
  match data.findIdx? (fun v => word == v) with
  | some k => (k : Int)
  | none => -1

/-- The mutable state of the `updateStatsLog` loop body: `headerRow` aliases
`records[0]`, `dataRows` is `records[1:]`, `newRecord` is the row being
built for today. -/
structure TickState where
  headerRow : List String
  dataRows : List (List String)
  newRecord : List String

/-- One iteration of the `for _, gallery := range stats.PageHitCounts` loop
in server.go `updateStatsLog`: find the column of the page; if absent,
append the page to the header, append "0" to the new record and to every
data row, and use the new last column; then write `fmt.Sprint(count)` into
that column of the new record. -/
def processGallery (st : TickState) (g : String × Int) : TickState :=
  let columnIndex := indexOf g.1 st.headerRow
  if columnIndex < 0 then
    let headerRow := st.headerRow ++ [g.1]
    let newRecord := st.newRecord ++ ["0"]
    let dataRows := st.dataRows.map (fun r => r ++ ["0"])
    let ci := headerRow.length - 1
    ⟨headerRow, dataRows, newRecord.set ci (toString g.2)⟩
  else
    ⟨st.headerRow, st.dataRows, st.newRecord.set columnIndex.toNat (toString g.2)⟩

/-- The in-memory phase of server.go `updateStatsLog`, between reading and
rewriting the file: build `newRecord := make([]string, len(records[0]))`
(Go zero value: the empty string in every column), set column 0 to today,
run the gallery loop over the snapshot, and append the new record. Returns
all rows of the rewritten file, header first. -/
def updateStatsLogRecords (today : String) (headerRow0 : List String)
    (dataRows0 : List (List String)) (stats : List (String × Int)) : List (List String) :=
  let newRecord := (List.replicate headerRow0.length "").set 0 today
  let final := stats.foldl processGallery ⟨headerRow0, dataRows0, newRecord⟩
  final.headerRow :: (final.dataRows ++ [final.newRecord])

/-- One tick of server.go `updateStatsLog`. `file` is `none` when the log
file does not exist, in which case the records start as the single header
row ["Date"]; otherwise it is the parsed CSV rows. A `none` result models
`log.Fatal` (here: `records[0]` out of range on a present but empty file). -/
def updateStatsLogTick (today : String) (file : Option (List (List String)))
    (m : HitCounts) : Option (List (List String)) :=
  let records := match file with
    | none => [["Date"]]
    | some rs => rs
  match records with
  | [] => none
  | hdr :: rows => some (updateStatsLogRecords today hdr rows (getStatsPageViewModel m))

/-- Modelled from the spec: the snapshot template `stats.csv.tmpl` rendered
by server.go `saveStats` is not in src; per the spec the snapshot file is a
CSV with one `(page, count)` row per known page plus the total row, written
from the sorted view model. The file is embedded as its parsed row list. -/
def saveStats (m : HitCounts) : List (String × Int) :=
  getStatsPageViewModel m

/-- The row loop of server.go `restoreStats`: every parsed row except the
"total" row is replayed through `increaseHitCount`. -/
def restoreFold (rows : List (String × Int)) (m : HitCounts) : HitCounts :=
  rows.foldl (fun s row => if row.1 = "total" then s else increaseHitCount row.1 row.2 s) m

/-- server.go `restoreStats`: `none` input is a missing snapshot file, on
which `os.Open` errs and the code panics (`none` result). Otherwise the rows
are replayed into the empty startup map. -/
def restoreStats (file : Option (List (String × Int))) : Option HitCounts :=
  match file with
  | none => none
  | some rows => some (restoreFold rows [])

/-- The total count that rows with sanitized key `k` (other than the "total"
row) contribute during a restore. -/
def sumVals (k : String) (rows : List (String × Int)) : Int :=
  ((rows.filter (fun r => (!(r.1 == "total")) && (santitisePageName r.1 == k))).map
    (fun r => r.2)).sum

/-- The result of `os.Stat` on a path, as far as server.go inspects it. -/
inductive StatResult where
  | notExist
  | existsFile
  | existsDir
  | statError
deriving DecidableEq

/-- server.go `getGalleryExists`: `!os.IsNotExist(err)` after `os.Stat` on
the joined gallery path — true whenever the path exists as a file or as a
directory, and also when Stat fails with any other error. `stat` is the
filesystem oracle giving the Stat outcome at each gallery name. -/
def getGalleryExists (stat : String → StatResult) (gallery : String) : Bool :=
  match stat gallery with
  | StatResult.notExist => false
  | _ => true

/-- What a handler does to the HTTP response, as far as the claims care. -/
inductive HandlerResult where
  | redirect (location : String)
  | page
deriving DecidableEq

/-- server.go `galleryHandler`: `gallery` is `none` when `url.QueryUnescape`
fails (redirect home); otherwise redirect home without counting unless
`getGalleryExists`, else count one hit and render the gallery page. -/
def galleryHandler (stat : String → StatResult) (gallery : Option String)
    (m : HitCounts) : HitCounts × HandlerResult :=
  match gallery with
  | none => (m, HandlerResult.redirect "/")
  | some g =>
    if getGalleryExists stat g then
      (increaseHitCount g 1 m, HandlerResult.page)
    else
      (m, HandlerResult.redirect "/")

/-- server.go `statsHandler`: renders `getStatsPageViewModel`; it performs
no counter mutation, so the state passes through unchanged. -/
def statsHandler (m : HitCounts) : HitCounts × List (String × Int) :=
  (m, getStatsPageViewModel m)

/-- Rectangularity of the tick state: every data row and the row under
construction have exactly as many columns as the header. -/
def rectangular (st : TickState) : Prop :=
  (∀ r ∈ st.dataRows, r.length = st.headerRow.length)
    ∧ st.newRecord.length = st.headerRow.length

/-! ## Basic lemmas about the counter map -/

theorem getCount_nil (k : String) : getCount [] k = 0 := rfl

theorem getCount_cons (e : String × Int) (rest : HitCounts) (k : String) :
    getCount (e :: rest) k = if e.1 = k then e.2 else getCount rest k := rfl

theorem setCount_nil (k : String) (v : Int) : setCount [] k v = [(k, v)] := rfl

theorem setCount_cons (e : String × Int) (rest : HitCounts) (k : String) (v : Int) :
    setCount (e :: rest) k v = if e.1 = k then (k, v) :: rest else e :: setCount rest k v := rfl

theorem keysOf_cons (e : String × Int) (rest : HitCounts) :
    keysOf (e :: rest) = e.1 :: keysOf rest := rfl

theorem getCount_setCount_self (m : HitCounts) (k : String) (v : Int) :
    getCount (setCount m k v) k = v := by
  induction m with
  | nil => rw [setCount_nil, getCount_cons, if_pos rfl]
  | cons e rest ih =>
    rw [setCount_cons]
    by_cases h : e.1 = k
    · rw [if_pos h, getCount_cons, if_pos rfl]
    · rw [if_neg h, getCount_cons, if_neg h, ih]

theorem getCount_setCount_ne (m : HitCounts) (k k2 : String) (v : Int)
    (h : k ≠ k2) : getCount (setCount m k v) k2 = getCount m k2 := by
  induction m with
  | nil => rw [setCount_nil, getCount_cons, if_neg h, getCount_nil]
  | cons e rest ih =>
    rw [setCount_cons]
    by_cases he : e.1 = k
    · rw [if_pos he, getCount_cons, if_neg h, getCount_cons,
        if_neg (show ¬e.1 = k2 by rw [he]; exact h)]
    · rw [if_neg he, getCount_cons, getCount_cons, ih]

theorem getCount_increaseHitCount_of_ne_total (p : String) (n : Int)
    (m : HitCounts) (h : santitisePageName p ≠ "total") :
    getCount (increaseHitCount p n m) "total" = getCount m "total" + n := by
  unfold increaseHitCount
  rw [getCount_setCount_self, getCount_setCount_ne _ _ _ _ h]

theorem getCount_increaseHitCount_other (p : String) (n : Int) (m : HitCounts)
    (k : String) (hk : k ≠ "total") :
    getCount (increaseHitCount p n m) k
      = if santitisePageName p = k then getCount m k + n else getCount m k := by
  unfold increaseHitCount
  rw [getCount_setCount_ne _ _ _ _ (fun hc => hk hc.symm)]
  by_cases h : santitisePageName p = k
  · rw [if_pos h, h, getCount_setCount_self]
  · rw [if_neg h, getCount_setCount_ne _ _ _ _ h]

theorem mem_keysOf_setCount (m : HitCounts) (k : String) (v : Int) (a : String)
    (h : a ∈ keysOf (setCount m k v)) : a ∈ keysOf m ∨ a = k := by
  induction m with
  | nil =>
    rw [setCount_nil, keysOf_cons] at h
    rcases List.mem_cons.mp h with h1 | h1
    · exact Or.inr h1
    · cases h1
  | cons e rest ih =>
    rw [setCount_cons] at h
    by_cases he : e.1 = k
    · rw [if_pos he, keysOf_cons] at h
      rcases List.mem_cons.mp h with h1 | h1
      · exact Or.inr h1
      · exact Or.inl (by rw [keysOf_cons]; exact List.mem_cons_of_mem _ h1)
    · rw [if_neg he, keysOf_cons] at h
      rcases List.mem_cons.mp h with h1 | h1
      · exact Or.inl (by rw [keysOf_cons]; exact h1 ▸ List.mem_cons_self _ _)
      · rcases ih h1 with h2 | h2
        · exact Or.inl (by rw [keysOf_cons]; exact List.mem_cons_of_mem _ h2)
        · exact Or.inr h2

theorem nodup_keysOf_setCount (m : HitCounts) (k : String) (v : Int)
    (h : (keysOf m).Nodup) : (keysOf (setCount m k v)).Nodup := by
  induction m with
  | nil =>
    rw [setCount_nil, keysOf_cons]
    exact List.nodup_singleton _
  | cons e rest ih =>
    rw [keysOf_cons, List.nodup_cons] at h
    rw [setCount_cons]
    by_cases he : e.1 = k
    · rw [if_pos he, keysOf_cons]
      exact List.nodup_cons.mpr ⟨he ▸ h.1, h.2⟩
    · rw [if_neg he, keysOf_cons]
      refine List.nodup_cons.mpr ⟨fun hc => ?_, ih h.2⟩
      rcases mem_keysOf_setCount rest k v e.1 hc with h2 | h2
      · exact h.1 h2
      · exact he h2

theorem nodup_keysOf_increaseHitCount (p : String) (n : Int) (m : HitCounts)
    (h : (keysOf m).Nodup) : (keysOf (increaseHitCount p n m)).Nodup := by
  unfold increaseHitCount
  exact nodup_keysOf_setCount _ _ _ (nodup_keysOf_setCount _ _ _ h)

theorem nodup_keysOf_applyIncrements (calls : List (String × Int))
    (m : HitCounts) (h : (keysOf m).Nodup) :
    (keysOf (applyIncrements calls m)).Nodup := by
  induction calls generalizing m with
  | nil => exact h
  | cons c rest ih =>
    exact ih _ (nodup_keysOf_increaseHitCount c.1 c.2 m h)

/-! ## The snapshot view model is a descending permutation of the map -/

theorem insertByHits_perm (e : String × Int) (l : List (String × Int)) :
    (insertByHits e l).Perm (e :: l) := by
  induction l with
  | nil => exact List.Perm.refl _
  | cons f rest ih =>
    show (if e.2 > f.2 then e :: f :: rest else f :: insertByHits e rest).Perm _
    by_cases h : e.2 > f.2
    · rw [if_pos h]
    · rw [if_neg h]
      exact (List.Perm.cons f ih).trans (List.Perm.swap e f rest)

theorem sortByHits_perm (l : List (String × Int)) : (sortByHits l).Perm l := by
  induction l with
  | nil => exact List.Perm.refl _
  | cons e rest ih =>
    show (insertByHits e (sortByHits rest)).Perm _
    exact (insertByHits_perm e (sortByHits rest)).trans (List.Perm.cons e ih)

theorem find?_eq_head?_filter {α : Type} (p : α → Bool) (l : List α) :
    l.find? p = (l.filter p).head? := by
  induction l with
  | nil => rfl
  | cons a rest ih =>
    by_cases h : p a
    · rw [List.find?_cons_of_pos _ h, List.filter_cons_of_pos h]
      rfl
    · rw [List.find?_cons_of_neg _ h, List.filter_cons_of_neg h, ih]

theorem eq_of_perm_of_length_le_one {α : Type} {l l2 : List α}
    (hp : l.Perm l2) (h : l.length ≤ 1) : l = l2 := by
  cases l with
  | nil => exact List.Perm.nil_eq hp
  | cons a rest =>
    cases rest with
    | nil => exact (List.perm_singleton.mp hp.symm).symm
    | cons b more => simp at h

theorem find?_congr_of_perm {α : Type} (p : α → Bool) (l l2 : List α)
    (hp : l.Perm l2) (h : (l.filter p).length ≤ 1) :
    l.find? p = l2.find? p := by
  rw [find?_eq_head?_filter, find?_eq_head?_filter,
    eq_of_perm_of_length_le_one (List.Perm.filter p hp) h]

theorem filter_key_eq_nil (m : HitCounts) (k : String) (h : k ∉ keysOf m) :
    m.filter (fun e => e.1 == k) = [] := by
  induction m with
  | nil => rfl
  | cons e rest ih =>
    rw [keysOf_cons] at h
    have h1 : e.1 ≠ k := fun hc => h (by rw [← hc]; exact List.mem_cons_self _ _)
    have h2 : k ∉ keysOf rest := fun hc => h (List.mem_cons_of_mem _ hc)
    rw [List.filter_cons_of_neg (by simp [h1]), ih h2]

theorem filter_key_length_le_one (m : HitCounts) (k : String)
    (h : (keysOf m).Nodup) : (m.filter (fun e => e.1 == k)).length ≤ 1 := by
  induction m with
  | nil => simp
  | cons e rest ih =>
    rw [keysOf_cons, List.nodup_cons] at h
    by_cases he : e.1 = k
    · rw [List.filter_cons_of_pos (by simp [he]), filter_key_eq_nil rest k (he ▸ h.1)]
      exact Nat.le_refl 1
    · rw [List.filter_cons_of_neg (by simp [he])]
      exact ih h.2

theorem snapshotHitCount_eq_getCount (m : HitCounts) (k : String) :
    snapshotHitCount m k = getCount m k := by
  induction m with
  | nil => rfl
  | cons e rest ih =>
    unfold snapshotHitCount at ih ⊢
    by_cases he : e.1 = k
    · rw [List.find?_cons_of_pos _ (by simp [he]), getCount_cons, if_pos he]
    · rw [List.find?_cons_of_neg _ (by simp [he]), getCount_cons, if_neg he, ih]

/-! ## Sanitization -/

theorem dropWhile_slash_of_head_ne (l : List Char) (h : l.head? ≠ some '/') :
    l.dropWhile (fun c => c == '/') = l := by
  cases l with
  | nil => rfl
  | cons a as =>
    have ha : a ≠ '/' := fun hc => h (by rw [List.head?_cons, hc])
    rw [List.dropWhile_cons, if_neg (by simp [ha])]

theorem trimSlashes_eq_self (l : List Char) (h1 : l.head? ≠ some '/')
    (h2 : l.getLast? ≠ some '/') :
    ((l.dropWhile (fun c => c == '/')).reverse.dropWhile (fun c => c == '/')).reverse = l := by
  rw [dropWhile_slash_of_head_ne _ h1,
    dropWhile_slash_of_head_ne _ (by rw [List.head?_reverse]; exact h2),
    List.reverse_reverse]

theorem trimSlashes_wrap (l : List Char) (h1 : l.head? ≠ some '/')
    (h2 : l.getLast? ≠ some '/') :
    ((('/' :: (l ++ ['/'])).dropWhile (fun c => c == '/')).reverse.dropWhile
      (fun c => c == '/')).reverse = l := by
  rw [List.dropWhile_cons, if_pos (by rfl)]
  cases l with
  | nil => rfl
  | cons a as =>
    have ha : a ≠ '/' := fun hc => h1 (by rw [List.head?_cons, hc])
    rw [List.cons_append, List.dropWhile_cons, if_neg (by simp [ha])]
    have hrev : (a :: (as ++ ['/'])).reverse = '/' :: (as.reverse ++ [a]) := by
      rw [List.reverse_cons, List.reverse_append]
      rfl
    rw [hrev, List.dropWhile_cons, if_pos (by rfl), ← List.reverse_cons,
      dropWhile_slash_of_head_ne _ (by rw [List.head?_reverse]; exact h2),
      List.reverse_reverse]

theorem santitise_eq_self (x : String) (h1 : x.data.head? ≠ some '/')
    (h2 : x.data.getLast? ≠ some '/') : santitisePageName x = x := by
  unfold santitisePageName
  rw [trimSlashes_eq_self x.data h1 h2]

theorem santitise_wrap (x : String) (h1 : x.data.head? ≠ some '/')
    (h2 : x.data.getLast? ≠ some '/') :
    santitisePageName ("/" ++ x ++ "/") = x := by
  unfold santitisePageName
  have hdata : ("/" ++ x ++ "/").data = '/' :: (x.data ++ ['/']) := by
    rw [String.data_append, String.data_append]
    rfl
  rw [hdata, trimSlashes_wrap x.data h1 h2]

/-! ## Restore bookkeeping -/

theorem restoreFold_nil (m : HitCounts) : restoreFold [] m = m := rfl

theorem restoreFold_cons (r : String × Int) (rest : List (String × Int)) (m : HitCounts) :
    restoreFold (r :: rest) m
      = restoreFold rest (if r.1 = "total" then m else increaseHitCount r.1 r.2 m) := by
  unfold restoreFold
  rw [List.foldl_cons]

theorem sumVals_nil (k : String) : sumVals k [] = 0 := rfl

theorem sumVals_cons (k : String) (r : String × Int) (rest : List (String × Int)) :
    sumVals k (r :: rest)
      = (if r.1 ≠ "total" ∧ santitisePageName r.1 = k then r.2 else 0) + sumVals k rest := by
  unfold sumVals
  by_cases h1 : r.1 = "total"
  · rw [List.filter_cons_of_neg (by simp [h1])]
    simp [h1]
  · by_cases h2 : santitisePageName r.1 = k
    · rw [List.filter_cons_of_pos (by simp [h1, h2])]
      simp [h1, h2]
    · rw [List.filter_cons_of_neg (by simp [h1, h2])]
      simp [h1, h2]

theorem getCount_restoreFold (rows : List (String × Int)) (m0 : HitCounts)
    (k : String) (hk : k ≠ "total") :
    getCount (restoreFold rows m0) k = getCount m0 k + sumVals k rows := by
  induction rows generalizing m0 with
  | nil => rw [restoreFold_nil, sumVals_nil]; ring
  | cons r rest ih =>
    rw [restoreFold_cons, sumVals_cons, ih]
    by_cases h1 : r.1 = "total"
    · rw [if_pos h1, if_neg (by simp [h1])]
      ring
    · rw [if_neg h1, getCount_increaseHitCount_other r.1 r.2 m0 k hk]
      by_cases h2 : santitisePageName r.1 = k
      · rw [if_pos h2, if_pos ⟨h1, h2⟩]
        ring
      · rw [if_neg h2, if_neg (by simp [h2])]
        ring

theorem sumVals_perm (k : String) (rows rows2 : List (String × Int))
    (hp : rows.Perm rows2) : sumVals k rows = sumVals k rows2 := by
  unfold sumVals
  exact List.Perm.sum_eq (List.Perm.map _ (List.Perm.filter _ hp))

theorem sumVals_eq_zero (k : String) (m : HitCounts)
    (htrim : ∀ e ∈ m, santitisePageName e.1 = e.1) (hk : k ∉ keysOf m) :
    sumVals k m = 0 := by
  induction m with
  | nil => rfl
  | cons e rest ih =>
    rw [keysOf_cons] at hk
    have he : e.1 ≠ k := fun hc => hk (by rw [← hc]; exact List.mem_cons_self _ _)
    have hsan : santitisePageName e.1 = e.1 := htrim e (List.mem_cons_self _ _)
    rw [sumVals_cons, if_neg (fun hc => he (hsan.symm.trans hc.2)),
      ih (fun x hx => htrim x (List.mem_cons_of_mem _ hx))
        (fun hc => hk (List.mem_cons_of_mem _ hc))]
    ring

theorem sumVals_eq_getCount (m : HitCounts) (k : String) (hk : k ≠ "total")
    (hnd : (keysOf m).Nodup) (htrim : ∀ e ∈ m, santitisePageName e.1 = e.1) :
    sumVals k m = getCount m k := by
  induction m with
  | nil => rfl
  | cons e rest ih =>
    rw [keysOf_cons, List.nodup_cons] at hnd
    have hsan : santitisePageName e.1 = e.1 := htrim e (List.mem_cons_self _ _)
    have htrim2 : ∀ x ∈ rest, santitisePageName x.1 = x.1 :=
      fun x hx => htrim x (List.mem_cons_of_mem _ hx)
    rw [sumVals_cons, getCount_cons]
    by_cases he : e.1 = k
    · rw [if_pos he]
      by_cases ht : e.1 = "total"
      · exact absurd (he.symm.trans ht) hk
      · rw [if_pos ⟨ht, hsan.trans he⟩,
          sumVals_eq_zero k rest htrim2 (he ▸ hnd.1)]
        ring
    · rw [if_neg he, if_neg (fun hc => he (hsan.symm.trans hc.2)), ih hnd.2 htrim2]
      ring

/-! ## Rectangularity of the log -/

theorem processGallery_rectangular (st : TickState) (g : String × Int)
    (h : rectangular st) : rectangular (processGallery st g) := by
  unfold rectangular processGallery
  by_cases hc : indexOf g.1 st.headerRow < 0
  · rw [if_pos hc]
    constructor
    · intro r hr
      rcases List.mem_map.mp hr with ⟨r0, hr0, hr0e⟩
      rw [← hr0e, List.length_append, List.length_append, h.1 r0 hr0]
      rfl
    · rw [List.length_set, List.length_append, List.length_append, h.2]
      rfl
  · rw [if_neg hc]
    exact ⟨h.1, by rw [List.length_set]; exact h.2⟩

theorem foldl_processGallery_rectangular (stats : List (String × Int))
    (st : TickState) (h : rectangular st) :
    rectangular (stats.foldl processGallery st) := by
  induction stats generalizing st with
  | nil => exact h
  | cons g rest ih => exact ih _ (processGallery_rectangular st g h)

/-! ## The total counter accumulates increments -/

theorem getCount_applyIncrements_total (calls : List (String × Int))
    (m : HitCounts) (h : ∀ c ∈ calls, santitisePageName c.1 ≠ "total") :
    getCount (applyIncrements calls m) "total"
      = getCount m "total" + (calls.map (fun c => c.2)).sum := by
  induction calls generalizing m with
  | nil => simp [applyIncrements]
  | cons c rest ih =>
    have h1 : santitisePageName c.1 ≠ "total" := h c (List.mem_cons_self _ _)
    have h2 : ∀ x ∈ rest, santitisePageName x.1 ≠ "total" :=
      fun x hx => h x (List.mem_cons_of_mem _ hx)
    show getCount (applyIncrements rest (increaseHitCount c.1 c.2 m)) "total" = _
    rw [ih _ h2, getCount_increaseHitCount_of_ne_total c.1 c.2 m h1,
      List.map_cons, List.sum_cons]
    ring

theorem snapshotHitCount_viewModel (m : HitCounts) (k : String)
    (h : (keysOf m).Nodup) :
    snapshotHitCount (getStatsPageViewModel m) k = getCount m k := by
  have hfind : (sortByHits m).find? (fun e => e.1 == k) = m.find? (fun e => e.1 == k) := by
    apply find?_congr_of_perm
    · exact sortByHits_perm m
    · rw [List.Perm.length_eq (List.Perm.filter _ (sortByHits_perm m))]
      exact filter_key_length_le_one m k h
  rw [← snapshotHitCount_eq_getCount]
  unfold snapshotHitCount getStatsPageViewModel
  rw [hfind]

/-! ## Claim theorems -/

/-- C1: starting from a parsed log whose header is ["Date","a"] and whose
single data row is ["2020-01-01","3"], one tick of the stats log appender
taken while the hit counter holds exactly a=5 and b=2 writes the header
["Date","a","b"] and the data rows ["2020-01-01","3","0"] followed by
[today,"5","2"]. -/
theorem claim_C1_column_growth (today : String) :
    updateStatsLogTick today (some [["Date", "a"], ["2020-01-01", "3"]]) [("a", 5), ("b", 2)]
      = some [["Date", "a", "b"], ["2020-01-01", "3", "0"], [today, "5", "2"]] := rfl

/-- C2 is false on the code: with header ["Date","a"] and an empty counter
snapshot, the appended row is ["2024-01-02",""] — the non-Date column holds
the Go zero value "" from make([]string, numCols), not the claimed "0". -/
theorem claim_C2_counterexample :
    updateStatsLogTick "2024-01-02" (some [["Date", "a"]]) []
        = some [["Date", "a"], ["2024-01-02", ""]]
      ∧ updateStatsLogTick "2024-01-02" (some [["Date", "a"]]) []
        ≠ some [["Date", "a"], ["2024-01-02", "0"]] :=
  ⟨rfl, by decide⟩

/-- C2 amended: the new row has today's date in column 0 and the empty
string — the Go zero value, not "0" — in every other pre-existing column
(only columns newly appended during the tick get an explicit "0"); in
particular a tick taken while the snapshot is empty appends a row whose
every column except Date is the empty string. -/
theorem claim_C2_amended (today : String) (hdr : List String)
    (rows : List (List String)) (h : 0 < hdr.length) :
    updateStatsLogRecords today hdr rows (getStatsPageViewModel [])
      = hdr :: (rows ++ [today :: List.replicate (hdr.length - 1) ""]) := by
  cases hdr with
  | nil => simp at h
  | cons a t => rfl

/-- Witness for the amended C2 at header ["Date","a"] and one data row. -/
theorem claim_C2_amended_witness :
    0 < (["Date", "a"] : List String).length
      ∧ updateStatsLogRecords "2024-01-02" ["Date", "a"] [["2020-01-01", "3"]]
          (getStatsPageViewModel [])
        = ["Date", "a"] :: ([["2020-01-01", "3"]]
            ++ ["2024-01-02" :: List.replicate ((["Date", "a"] : List String).length - 1) ""]) :=
  ⟨by decide, claim_C2_amended "2024-01-02" ["Date", "a"] [["2020-01-01", "3"]] (by decide)⟩

/-- C3 is false on the code: the single call increment("total", 5) from the
empty counter leaves the snapshot total at 10, not at the claimed sum 5,
because the per-page update and the aggregate update hit the same key. -/
theorem claim_C3_counterexample :
    snapshotHitCount (getStatsPageViewModel (applyIncrements [("total", 5)] [])) "total" = 10
      ∧ (10 : Int) ≠ 5 := by
  exact ⟨by decide, by decide⟩

/-- C3 amended: for every sequence of increment(page, n) calls from the
empty counter in which no page name sanitizes to "total", the total entry
of the snapshot afterwards equals the sum of all the n arguments. -/
theorem claim_C3_amended (calls : List (String × Int))
    (h : ∀ c ∈ calls, santitisePageName c.1 ≠ "total") :
    snapshotHitCount (getStatsPageViewModel (applyIncrements calls [])) "total"
      = (calls.map (fun c => c.2)).sum := by
  rw [snapshotHitCount_viewModel _ _ (nodup_keysOf_applyIncrements calls [] List.nodup_nil),
    getCount_applyIncrements_total calls [] h, getCount_nil]
  ring

/-- Witness for the amended C3 at the calls [("index",2),("bio",3)]. -/
theorem claim_C3_amended_witness :
    (∀ c ∈ ([("index", 2), ("bio", 3)] : List (String × Int)),
        santitisePageName c.1 ≠ "total")
      ∧ snapshotHitCount
          (getStatsPageViewModel (applyIncrements [("index", 2), ("bio", 3)] [])) "total"
        = ([(("index" : String), (2 : Int)), ("bio", 3)].map (fun c => c.2)).sum :=
  ⟨by decide, claim_C3_amended [("index", 2), ("bio", 3)] (by decide)⟩

/-- C4: snapshot persistence round-trips. For every counter map — keys
pairwise distinct and slash-trimmed, as the hit counter maintains them —
writing the snapshot file and restoring it into the empty startup map
reproduces every count except at the "total" key, which restore skips and
recomputes by routing each restored count through increaseHitCount. -/
theorem claim_C4_roundtrip (m : HitCounts) (hnd : (keysOf m).Nodup)
    (htrim : ∀ e ∈ m, santitisePageName e.1 = e.1)
    (k : String) (hk : k ≠ "total") :
    ∀ m2, restoreStats (some (saveStats m)) = some m2 → getCount m2 k = getCount m k := by
  intro m2 hm2
  have h3 : restoreFold (saveStats m) [] = m2 := Option.some.inj hm2
  rw [← h3, getCount_restoreFold _ _ _ hk, getCount_nil,
    sumVals_perm k (saveStats m) m (sortByHits_perm m),
    sumVals_eq_getCount m k hk hnd htrim]
  ring

/-- Witness for C4 at the map [("a",2),("b",1),("total",3)] and key "a". -/
theorem claim_C4_roundtrip_witness :
    (keysOf ([("a", 2), ("b", 1), ("total", 3)] : HitCounts)).Nodup
      ∧ (∀ e ∈ ([("a", 2), ("b", 1), ("total", 3)] : HitCounts),
          santitisePageName e.1 = e.1)
      ∧ ("a" : String) ≠ "total"
      ∧ (∀ m2, restoreStats (some (saveStats [("a", 2), ("b", 1), ("total", 3)])) = some m2
          → getCount m2 "a" = getCount [("a", 2), ("b", 1), ("total", 3)] "a") :=
  ⟨by decide, by decide, by decide,
    claim_C4_roundtrip _ (by decide) (by decide) "a" (by decide)⟩

/-- C5: rectangularity. If every data row of the parsed log has as many
columns as the header, then after one tick every row of the written log —
header and newly appended row included — has the same number of columns. -/
theorem claim_C5_rectangular (today : String) (hdr : List String)
    (rows : List (List String)) (stats : List (String × Int))
    (h : ∀ r ∈ rows, r.length = hdr.length) :
    ∀ r1 ∈ updateStatsLogRecords today hdr rows stats,
      ∀ r2 ∈ updateStatsLogRecords today hdr rows stats, r1.length = r2.length := by
  have hinit : rectangular ⟨hdr, rows, (List.replicate hdr.length "").set 0 today⟩ := by
    constructor
    · exact h
    · rw [List.length_set, List.length_replicate]
  have hfin := foldl_processGallery_rectangular stats _ hinit
  have hall : ∀ r ∈ updateStatsLogRecords today hdr rows stats,
      r.length = (stats.foldl processGallery
        ⟨hdr, rows, (List.replicate hdr.length "").set 0 today⟩).headerRow.length := by
    intro r hr
    rcases List.mem_cons.mp hr with hr1 | hr1
    · rw [hr1]
    · rcases List.mem_append.mp hr1 with hr2 | hr2
      · exact hfin.1 r hr2
      · rw [List.mem_singleton.mp hr2]
        exact hfin.2
  intro r1 hr1 r2 hr2
  rw [hall r1 hr1, hall r2 hr2]

/-- Witness for C5 at a concrete rectangular log and a new page. -/
theorem claim_C5_rectangular_witness :
    (∀ r ∈ ([["2020-01-01", "3"]] : List (List String)),
        r.length = (["Date", "a"] : List String).length)
      ∧ (∀ r1 ∈ updateStatsLogRecords "d" ["Date", "a"] [["2020-01-01", "3"]] [("b", 1)],
          ∀ r2 ∈ updateStatsLogRecords "d" ["Date", "a"] [["2020-01-01", "3"]] [("b", 1)],
          r1.length = r2.length) :=
  ⟨by decide, claim_C5_rectangular "d" ["Date", "a"] [["2020-01-01", "3"]] [("b", 1)] (by decide)⟩

/-- C6 is false on the code: getGalleryExists tests bare os.Stat existence,
not directory-ness. On a filesystem where the requested name exists as a
plain file — so it is not an existing directory — the handler serves the
gallery page (no redirect) and increments both the page and total
counters. -/
theorem claim_C6_counterexample :
    galleryHandler (fun _ => StatResult.existsFile) (some "g") []
        = (increaseHitCount "g" 1 [], HandlerResult.page)
      ∧ getCount (galleryHandler (fun _ => StatResult.existsFile) (some "g") []).1 "g" = 1
      ∧ getCount (galleryHandler (fun _ => StatResult.existsFile) (some "g") []).1 "total" = 1
      ∧ (galleryHandler (fun _ => StatResult.existsFile) (some "g") []).2
          ≠ HandlerResult.redirect "/" :=
  ⟨rfl, by decide, by decide, by decide⟩

/-- C6 amended: for every request to /gallery/{name} where os.Stat reports
that {name} does not exist at all under the galleries root, the handler
redirects to / and the counter map is left unchanged; the code counts and
serves whenever the path exists as anything (directory or plain file) or
Stat fails with an error other than not-exist. -/
theorem claim_C6_amended (stat : String → StatResult) (g : String)
    (m : HitCounts) (h : stat g = StatResult.notExist) :
    galleryHandler stat (some g) m = (m, HandlerResult.redirect "/") := by
  show (if getGalleryExists stat g = true then (increaseHitCount g 1 m, HandlerResult.page)
      else (m, HandlerResult.redirect "/")) = (m, HandlerResult.redirect "/")
  rw [show getGalleryExists stat g = false from by unfold getGalleryExists; rw [h]]
  simp

/-- Witness for the amended C6 at an all-absent filesystem. -/
theorem claim_C6_amended_witness :
    ((fun _ : String => StatResult.notExist) "g" = StatResult.notExist)
      ∧ galleryHandler (fun _ => StatResult.notExist) (some "g") [("index", 4)]
          = ([("index", 4)], HandlerResult.redirect "/") :=
  ⟨rfl, claim_C6_amended (fun _ => StatResult.notExist) "g" [("index", 4)] rfl⟩

/-- C7: slash-wrapped and bare page names are equivalent: for every x with
no leading or trailing slash, increment("/x/", n) and increment("x", n)
sanitize to the same counter key and produce equal counter maps. -/
theorem claim_C7_sanitization (x : String) (n : Int) (m : HitCounts)
    (h1 : x.data.head? ≠ some '/') (h2 : x.data.getLast? ≠ some '/') :
    increaseHitCount ("/" ++ x ++ "/") n m = increaseHitCount x n m
      ∧ santitisePageName ("/" ++ x ++ "/") = santitisePageName x := by
  have e1 := santitise_wrap x h1 h2
  have e2 := santitise_eq_self x h1 h2
  constructor
  · unfold increaseHitCount
    rw [e1, e2]
  · rw [e1, e2]

/-- Witness for C7 at x = "x", n = 2, the empty map. -/
theorem claim_C7_sanitization_witness :
    (("x" : String).data.head? ≠ some '/')
      ∧ (("x" : String).data.getLast? ≠ some '/')
      ∧ (increaseHitCount ("/" ++ "x" ++ "/") 2 [] = increaseHitCount "x" 2 []
          ∧ santitisePageName ("/" ++ "x" ++ "/") = santitisePageName "x") :=
  ⟨by decide, by decide, claim_C7_sanitization "x" 2 [] (by decide) (by decide)⟩

/-- C8: missing-file handling is asymmetric: a tick of the appender with an
absent log file proceeds normally, starting from header ["Date"] with no
data rows, while restoring an absent snapshot file at startup is fatal
(none, modelling the panic). -/
theorem claim_C8_missing_file_asymmetry :
    (∀ today m, updateStatsLogTick today none m
        = some (updateStatsLogRecords today ["Date"] [] (getStatsPageViewModel m)))
      ∧ restoreStats none = none :=
  ⟨fun _ _ => rfl, rfl⟩

/-- C9: serving the /stats page does not touch the counter: the handler
returns the counter map (every entry, "total" included) unchanged. -/
theorem claim_C9_stats_frame (m : HitCounts) : (statsHandler m).1 = m := rfl

/-- C10: the aggregate key is unprotected: incrementing any page name that
sanitizes to "total" adds 2*n to the "total" entry, because the per-page
and aggregate updates target the same key. -/
theorem claim_C10_total_collision (m : HitCounts) (n : Int) (p : String)
    (hp : santitisePageName p = "total") :
    getCount (increaseHitCount p n m) "total" = getCount m "total" + 2 * n := by
  unfold increaseHitCount
  rw [hp, getCount_setCount_self, getCount_setCount_self]
  ring

/-- Witness for C10 at p = "/total/", n = 3, the empty map. -/
theorem claim_C10_total_collision_witness :
    santitisePageName "/total/" = "total"
      ∧ getCount (increaseHitCount "/total/" 3 []) "total" = getCount [] "total" + 2 * 3 :=
  ⟨by decide, claim_C10_total_collision [] 3 "/total/" (by decide)⟩
